import Mathlib

/-!
Verification development for the ProcessArchitec backend generation pipeline.

The source is a small JavaScript (Express) service with one generation
endpoint.  Its data are untyped JSON values, so the embedding models JSON
values directly, together with the JavaScript operations the handler uses:
property read and write on objects (insertion order preserved, first
matching key updated in place), object spread, JavaScript truthiness, the
built-in JSON.parse, the regex span match used for extraction, and the
request handler control flow of src/index.js.
-/

/-- A JSON value as produced by JSON.parse.  Numbers keep their source
lexeme, which is all the pipeline ever needs (it never does arithmetic on
parsed numbers). Objects are insertion-ordered key/value lists. -/
inductive Json where
  | null
  | bool (b : Bool)
  | num (lexeme : String)
  | str (s : String)
  | arr (elems : List Json)
  | obj (fields : List (String × Json))

/-- Property lookup on an object field list: first matching key wins
(field lists coming from JavaScript never repeat a key). -/
def jsGet : List (String × Json) → String → Option Json
  | [], _ => none
  | (k, v) :: rest, key => if k = key then some v else jsGet rest key

/-- Property write on an object field list: the first matching key keeps
its slot and receives the new value; a fresh key is appended, matching
JavaScript object insertion-order semantics. -/
def setProp : List (String × Json) → String → Json → List (String × Json)
  | [], key, v => [(key, v)]
  | (k, w) :: rest, key, v =>
    if k = key then (k, v) :: rest else (k, w) :: setProp rest key v

/-- A JSON number lexeme denotes zero exactly when every digit of its
mantissa (the part before any exponent marker) is the digit zero. -/
def numIsZero (lexeme : String) : Bool :=
  (lexeme.data.takeWhile (fun c => c != 'e' && c != 'E')).all
    (fun c => !c.isDigit || c == '0')

/-- JavaScript truthiness of a JSON value: null, false, numeric zero and
the empty string are falsy; every array and object is truthy. -/
def jsTruthy : Json → Bool
  | Json.null => false
  | Json.bool b => b
  | Json.num lexeme => !(numIsZero lexeme)
  | Json.str s => !(s.data.isEmpty)
  | Json.arr _ => true
  | Json.obj _ => true

/-- The JavaScript pattern `a || b` applied to a possibly absent property
value: an absent property reads as undefined, which is falsy. -/
def jsOr (o : Option Json) (d : Json) : Json :=
  match o with
  | some j => if jsTruthy j then j else d
  | none => d

/-- Property read on an arbitrary JSON value: only objects carry the
named properties the pipeline reads; on every other value the read
yields undefined (callers model the null TypeError separately). -/
def jsGetProp : Json → String → Option Json
  | Json.obj l, k => jsGet l k
  | _, _ => none

/-- Own enumerable entries contributed by object spread.  Objects
contribute their fields, arrays and strings their indexed elements,
primitives nothing. -/
def jsSpreadEntries : Json → List (String × Json)
  | Json.obj l => l
  | Json.arr l => l.enum.map (fun p => (toString p.1, p.2))
  | Json.str s => s.data.enum.map (fun p => (toString p.1, Json.str (String.mk [p.2])))
  | _ => []

/-- Whether a JSON value is an object. -/
def isObjJson : Json → Bool
  | Json.obj _ => true
  | _ => false

/-! ## JSON.parse

A fueled recursive-descent parser for the JSON grammar, modelling the
JavaScript built-in.  Duplicate object keys follow JavaScript semantics:
the later value wins while the key keeps its first slot. -/

/-- JSON insignificant whitespace. -/
def isJsonWs (c : Char) : Bool :=
  c == ' ' || c == '\t' || c == '\n' || c == '\r'

/-- Drop leading JSON whitespace. -/
def skipWs (cs : List Char) : List Char := cs.dropWhile isJsonWs

/-- Value of a hexadecimal digit. -/
def hexVal (c : Char) : Option Nat :=
  if '0' ≤ c ∧ c ≤ '9' then some (c.toNat - '0'.toNat)
  else if 'a' ≤ c ∧ c ≤ 'f' then some (c.toNat - 'a'.toNat + 10)
  else if 'A' ≤ c ∧ c ≤ 'F' then some (c.toNat - 'A'.toNat + 10)
  else none

/-- Body of a JSON string literal, after the opening quote.  Returns the
decoded string and the input following the closing quote.  Unescaped
control characters are rejected, as JSON.parse rejects them. -/
def pStrAux : Nat → List Char → List Char → Option (String × List Char)
  | 0, _, _ => none
  | _ + 1, _, [] => none
  | fuel + 1, acc, c :: rest =>
    if c = '"' then some (String.mk acc.reverse, rest)
    else if c = '\\' then
      match rest with
      | [] => none
      | e :: rest2 =>
        if e = '"' then pStrAux fuel ('"' :: acc) rest2
        else if e = '\\' then pStrAux fuel ('\\' :: acc) rest2
        else if e = '/' then pStrAux fuel ('/' :: acc) rest2
        else if e = 'b' then pStrAux fuel ('\x08' :: acc) rest2
        else if e = 'f' then pStrAux fuel ('\x0c' :: acc) rest2
        else if e = 'n' then pStrAux fuel ('\n' :: acc) rest2
        else if e = 'r' then pStrAux fuel ('\r' :: acc) rest2
        else if e = 't' then pStrAux fuel ('\t' :: acc) rest2
        else if e = 'u' then
          match rest2 with
          | h1 :: h2 :: h3 :: h4 :: rest3 =>
            match hexVal h1, hexVal h2, hexVal h3, hexVal h4 with
            | some x1, some x2, some x3, some x4 =>
              pStrAux fuel (Char.ofNat (((x1 * 16 + x2) * 16 + x3) * 16 + x4) :: acc) rest3
            | _, _, _, _ => none
          | _ => none
        else none
    else if c.toNat < 32 then none
    else pStrAux fuel (c :: acc) rest

/-- One or more decimal digits, returned with the remaining input. -/
def pDigits (cs : List Char) : Option (List Char × List Char) :=
  let ds := cs.takeWhile Char.isDigit
  if ds.isEmpty then none else some (ds, cs.drop ds.length)

/-- A JSON number lexeme: optional minus, integer part with no leading
zeros, optional fraction, optional exponent.  Malformed trailing parts
are left unconsumed, so they fail later as stray input, matching the
all-or-nothing outcome of JSON.parse. -/
def pNum (cs : List Char) : Option (String × List Char) :=
  let signAndRest : List Char × List Char :=
    match cs with
    | '-' :: r => (['-'], r)
    | _ => ([], cs)
  match signAndRest.2 with
  | [] => none
  | c :: r =>
    if !c.isDigit then none
    else
      let intAndRest : List Char × List Char :=
        if c = '0' then ([c], r)
        else
          let ds := r.takeWhile Char.isDigit
          (c :: ds, r.drop ds.length)
      let fracAndRest : List Char × List Char :=
        match intAndRest.2 with
        | '.' :: r2 =>
          match pDigits r2 with
          | some (ds, r3) => ('.' :: ds, r3)
          | none => ([], intAndRest.2)
        | _ => ([], intAndRest.2)
      let expAndRest : List Char × List Char :=
        match fracAndRest.2 with
        | e :: r2 =>
          if e = 'e' ∨ e = 'E' then
            match r2 with
            | s :: r3 =>
              if s = '+' ∨ s = '-' then
                match pDigits r3 with
                | some (ds, r4) => (e :: s :: ds, r4)
                | none => ([], fracAndRest.2)
              else
                match pDigits r2 with
                | some (ds, r4) => ([e] ++ ds, r4)
                | none => ([], fracAndRest.2)
            | [] => ([], fracAndRest.2)
          else ([], fracAndRest.2)
        | [] => ([], fracAndRest.2)
      some (String.mk (signAndRest.1 ++ intAndRest.1 ++ fracAndRest.1 ++ expAndRest.1),
        expAndRest.2)

mutual

/-- Parse one JSON value. -/
def pVal : Nat → List Char → Option (Json × List Char)
  | 0, _ => none
  | fuel + 1, cs =>
    match skipWs cs with
    | 'n' :: 'u' :: 'l' :: 'l' :: rest => some (Json.null, rest)
    | 't' :: 'r' :: 'u' :: 'e' :: rest => some (Json.bool true, rest)
    | 'f' :: 'a' :: 'l' :: 's' :: 'e' :: rest => some (Json.bool false, rest)
    | '"' :: rest =>
      match pStrAux rest.length [] rest with
      | some (s, rest2) => some (Json.str s, rest2)
      | none => none
    | '[' :: rest =>
      match skipWs rest with
      | ']' :: rest2 => some (Json.arr [], rest2)
      | _ => pElems fuel rest []
    | '{' :: rest =>
      match skipWs rest with
      | '}' :: rest2 => some (Json.obj [], rest2)
      | _ => pMembers fuel rest []
    | other =>
      match pNum other with
      | some (lexeme, rest) => some (Json.num lexeme, rest)
      | none => none

/-- Parse the elements of a non-empty JSON array, accumulating in
reverse. -/
def pElems : Nat → List Char → List Json → Option (Json × List Char)
  | 0, _, _ => none
  | fuel + 1, cs, acc =>
    match pVal fuel cs with
    | none => none
    | some (v, rest) =>
      match skipWs rest with
      | ',' :: rest2 => pElems fuel rest2 (v :: acc)
      | ']' :: rest2 => some (Json.arr (v :: acc).reverse, rest2)
      | _ => none

/-- Parse the members of a non-empty JSON object.  A repeated key keeps
its first slot and takes the later value, as in JavaScript. -/
def pMembers : Nat → List Char → List (String × Json) → Option (Json × List Char)
  | 0, _, _ => none
  | fuel + 1, cs, acc =>
    match skipWs cs with
    | '"' :: rest =>
      match pStrAux rest.length [] rest with
      | none => none
      | some (k, rest2) =>
        match skipWs rest2 with
        | ':' :: rest3 =>
          match pVal fuel rest3 with
          | none => none
          | some (v, rest4) =>
            match skipWs rest4 with
            | ',' :: rest5 => pMembers fuel rest5 (setProp acc k v)
            | '}' :: rest5 => some (Json.obj (setProp acc k v), rest5)
            | _ => none
        | _ => none
    | _ => none

end

/-- JSON.parse: parse the whole text as a single JSON value; any stray
non-whitespace input means failure.  JavaScript raises a SyntaxError in
the failure case; the model returns none. -/
def jsonParse (s : String) : Option Json :=
  match pVal (2 * s.length + 2) s.data with
  | some (v, rest) => if (skipWs rest).isEmpty then some v else none
  | none => none

/-! ## Response extraction

Both handler versions clean a provider reply with
`text.match(/\x7b[\s\S]*\x7d/)`: a greedy match running from the first
opening brace that has some closing brace after it to the last closing
brace of the whole text. -/

/-- The span matched by the greedy outer-brace regex, if any. -/
def spanMatch (s : String) : Option String :=
  let cs := s.data
  match cs.findIdx? (fun c => c == '{'), cs.reverse.findIdx? (fun c => c == '}') with
  | some i, some jr =>
    let j := cs.length - 1 - jr
    if i < j then some (String.mk ((cs.drop i).take (j - i + 1))) else none
  | _, _ => none

/-- Extraction of a workflow JSON value from raw provider text, as in the
Claude branch of src/unnamed/part_000: parse the brace span if one
exists, otherwise parse the entire raw text.  A none result models the
thrown SyntaxError. -/
def extractClean (raw : String) : Option Json :=
  match spanMatch raw with
  | some span => jsonParse span
  | none => jsonParse raw

/-! ## The heuristic fallback synthesizer (src/index.js, lines 125-191)

A pure function of the requirement text: lowercase keyword tests pick the
trigger node, a processing node is always appended, and a Google Sheets
node is appended (with the processing output rewired to it) when the text
mentions sheets. -/

/-- Lowercasing of an ASCII letter, the fragment of toLowerCase the
keyword tests exercise (all keywords are ASCII). -/
def asciiLowerChar (c : Char) : Char :=
  if 'A' ≤ c ∧ c ≤ 'Z' then Char.ofNat (c.toNat + 32) else c

/-- ASCII lowercasing of a string. -/
def asciiLower (s : String) : String := String.mk (s.data.map asciiLowerChar)

/-- Whether the first list is a prefix of the second. -/
def isPrefixOfList : List Char → List Char → Bool
  | [], _ => true
  | _ :: _, [] => false
  | p :: ps, c :: cs => p == c && isPrefixOfList ps cs

/-- Whether the first list occurs as a contiguous sublist of the
second: the String.prototype.includes test. -/
def occursIn (pat : List Char) : List Char → Bool
  | [] => isPrefixOfList pat []
  | c :: cs => isPrefixOfList pat (c :: cs) || occursIn pat cs

/-- JavaScript includes on strings. -/
def strIncludes (s pat : String) : Bool := occursIn pat.data s.data

/-- The source test `workflowDescription.toLowerCase().includes("email")`. -/
def isEmailWorkflow (d : String) : Bool := strIncludes (asciiLower d) "email"

/-- The source test `includes("daily") || includes("schedule")` on the lowercased text. -/
def isScheduled (d : String) : Bool :=
  strIncludes (asciiLower d) "daily" || strIncludes (asciiLower d) "schedule"

/-- The source test `includes("sheet") || includes("spreadsheet")` on
the lowercased text. -/
def needsGoogleSheets (d : String) : Bool :=
  strIncludes (asciiLower d) "sheet" || strIncludes (asciiLower d) "spreadsheet"

/-- The source expression `workflowDescription.substring(0, 50)`. -/
def substringTo (d : String) (n : Nat) : String := String.mk (d.data.take n)

/-- A single main-port connection entry
`\x7b main: [[\x7b node: tgt, type: "main", index: 0 \x7d]] \x7d`. -/
def mainLink (tgt : String) : Json :=
  Json.obj [("main", Json.arr [Json.arr [Json.obj
    [("node", Json.str tgt), ("type", Json.str "main"), ("index", Json.num "0")]]])]

/-- The trigger node of the fallback workflow, selected by the email and
schedule keyword flags. -/
def fallbackTrigger (isE isS : Bool) : Json :=
  Json.obj [
    ("id", Json.str "trigger"),
    ("name", Json.str (if isE then "Email Trigger"
      else if isS then "Schedule Trigger" else "Webhook")),
    ("type", Json.str (if isE then "n8n-nodes-base.emailReadImap"
      else if isS then "n8n-nodes-base.scheduleTrigger"
      else "n8n-nodes-base.webhook")),
    ("position", Json.arr [Json.num "250", Json.num "300"]),
    ("parameters",
      if isE then
        Json.obj [("mailbox", Json.str "INBOX"),
          ("postProcessAction", Json.str "nothing"), ("options", Json.obj [])]
      else if isS then
        Json.obj [("rule", Json.obj [("interval", Json.arr [Json.obj
          [("field", Json.str "hours"), ("hoursInterval", Json.num "24")]])])]
      else
        Json.obj [("path", Json.str "workflow-trigger"), ("method", Json.str "POST")])]

/-- The processing node of the fallback workflow. -/
def fallbackProcess : Json :=
  Json.obj [
    ("id", Json.str "process"),
    ("name", Json.str "Process Data"),
    ("type", Json.str "n8n-nodes-base.code"),
    ("position", Json.arr [Json.num "500", Json.num "300"]),
    ("parameters", Json.obj [("jsCode", Json.str "// Process the incoming data\nconst items = $input.all();\nreturn items.map(item => (\x7b\n  json: \x7b\n    ...item.json,\n    processed: true,\n    timestamp: new Date().toISOString()\n  \x7d\n\x7d));")])]

/-- The Google Sheets node appended when the requirement mentions
sheets. -/
def fallbackSheets : Json :=
  Json.obj [
    ("id", Json.str "sheets"),
    ("name", Json.str "Google Sheets"),
    ("type", Json.str "n8n-nodes-base.googleSheets"),
    ("position", Json.arr [Json.num "750", Json.num "300"]),
    ("parameters", Json.obj [("operation", Json.str "append"),
      ("sheetId", Json.str "your-sheet-id"), ("range", Json.str "A:Z")])]

/-- The intelligent-fallback workflow of src/index.js.  The base document
has the trigger and processing nodes with a trigger-to-process
connection; when the requirement mentions sheets, the sheets node is
pushed and `connections["process"]` is assigned, rewiring the processing
output. -/
def intelligentFallback (d : String) : Json :=
  let nodes0 : List Json := [fallbackTrigger (isEmailWorkflow d) (isScheduled d), fallbackProcess]
  let conns0 : List (String × Json) := [("trigger", mainLink "process")]
  let nodes := if needsGoogleSheets d then nodes0 ++ [fallbackSheets] else nodes0
  let conns := if needsGoogleSheets d then setProp conns0 "process" (mainLink "sheets") else conns0
  Json.obj [
    ("name", Json.str ("ProcessArchitec - " ++ substringTo d 50)),
    ("nodes", Json.arr nodes),
    ("connections", Json.obj conns),
    ("settings", Json.obj [("executionOrder", Json.str "v1")])]

/-! ## The normalizer

src/unnamed/part_000, lines 162-172: fill the required fields if absent
or falsy, then give every node lacking a position one computed from its
index.  src/index.js, lines 193-195, performs only the name and settings
defaulting. -/

/-- The default position of the node at a given index:
`[250 + index * 250, 300]`. -/
def posDefault (i : Nat) : Json :=
  Json.arr [Json.num (toString (250 + i * 250)), Json.num "300"]

/-- Normalization of one node:
`(\x7b ...node, position: node.position || [250 + index * 250, 300] \x7d)`.
Reading a property of null throws, modelled by none. -/
def normNode (i : Nat) : Json → Option Json
  | Json.null => none
  | n => some (Json.obj (setProp (jsSpreadEntries n) "position"
      (jsOr (jsGetProp n "position") (posDefault i))))

/-- The indexed map over the nodes array; none propagates a thrown
TypeError. -/
def mapNodes : Nat → List Json → Option (List Json)
  | _, [] => some []
  | i, n :: rest =>
    match normNode i n, mapNodes (i + 1) rest with
    | some n2, some rest2 => some (n2 :: rest2)
    | _, _ => none

/-- The four required-field defaulting assignments of the part_000
normalizer, in source order. -/
def normalizeFields (now : Nat) (l : List (String × Json)) : List (String × Json) :=
  let l1 := setProp l "name"
    (jsOr (jsGet l "name") (Json.str ("ProcessArchitec Workflow - " ++ toString now)))
  let l2 := setProp l1 "nodes" (jsOr (jsGet l1 "nodes") (Json.arr []))
  let l3 := setProp l2 "connections" (jsOr (jsGet l2 "connections") (Json.obj []))
  setProp l3 "settings" (jsOr (jsGet l3 "settings") (Json.obj [("executionOrder", Json.str "v1")]))

/-- The part_000 normalizer.  The timestamp that Date.now() would return
is passed in as now.  A candidate that is not an object, or whose nodes
value is not an array after defaulting, makes the handler throw: none. -/
def normalizeDoc (now : Nat) : Json → Option Json
  | Json.obj l =>
    let l4 := normalizeFields now l
    match jsGet l4 "nodes" with
    | some (Json.arr ns) =>
      match mapNodes 0 ns with
      | some ns2 => some (Json.obj (setProp l4 "nodes" (Json.arr ns2)))
      | none => none
    | _ => none
  | _ => none

/-- The src/index.js defaulting pass before res.json: only name and
settings are filled.  Property assignment on a non-object primitive is a
silent no-op in non-strict JavaScript, and the document here is always
truthy, so non-objects pass through unchanged. -/
def indexDefaulting (now : Nat) : Json → Json
  | Json.obj l =>
    let l1 := setProp l "name"
      (jsOr (jsGet l "name") (Json.str ("ProcessArchitec Workflow - " ++ toString now)))
    Json.obj (setProp l1 "settings"
      (jsOr (jsGet l1 "settings") (Json.obj [("executionOrder", Json.str "v1")])))
  | j => j

/-! ## The generation request handler of src/index.js

The handler is modelled as a function of the per-request environment:
which provider credentials are configured, the outcome of the provider
calls that would be made, the inbound workflowDescription (possibly
absent from the request body), and the current time.  The business
context only flows into the prompt text, which no observable output
depends on, so it is not part of the environment. -/

/-- Outcome of the Claude fetch: the promise rejects (network failure),
the response has a non-success status, or it succeeds with reply
text. -/
inductive ClaudeRes where
  | netErr
  | httpErr (status : Nat)
  | okText (text : String)

/-- Outcome of the OpenAI chat-completions call. -/
inductive OpenAIRes where
  | err
  | okContent (content : String)

/-- The per-request environment of the generation endpoint. -/
structure GenEnv where
  hasAnthropic : Bool
  claude : ClaudeRes
  hasOpenAI : Bool
  openai : OpenAIRes
  desc : Option String
  now : Nat

/-- The HTTP response of the generation endpoint: a 200 JSON body, or the
500 response produced by the catch block. -/
inductive GenResp where
  | ok (body : Json)
  | serverError (details : String) (hasAI : Bool)

/-- The JSON body actually sent for a response. -/
def respBody : GenResp → Json
  | GenResp.ok b => b
  | GenResp.serverError details hasAI =>
    Json.obj [("error", Json.str "Generation failed"),
      ("details", Json.str details), ("hasAI", Json.bool hasAI)]

/-- Falsiness of the workflow variable: undefined (none) or a falsy
value. -/
def jsFalsyOpt : Option Json → Bool
  | none => true
  | some j => !(jsTruthy j)

/-- The app.post handler of src/index.js, lines 24-207.

Claude branch: a rejected fetch or a non-ok status throws, landing in the
catch block; on ok text the brace-span match is attempted, parsing the
span when found (a parse failure throws) and leaving the workflow unset
when no span is found.  OpenAI branch: runs only while the workflow is
unset, throwing on call or parse failure.  Then the intelligent fallback
runs if the workflow is still unset, which throws a TypeError when
workflowDescription is absent.  The catch block answers 500 with
details and the aggregate hasAI flag. -/
def handleGenerate (e : GenEnv) : GenResp :=
  let hasAI := e.hasAnthropic || e.hasOpenAI
  let step1 : Except String (Option Json) :=
    if e.hasAnthropic then
      match e.claude with
      | ClaudeRes.netErr => Except.error "fetch failed"
      | ClaudeRes.httpErr _ => Except.error "Claude API failed"
      | ClaudeRes.okText text =>
        match spanMatch text with
        | some span =>
          match jsonParse span with
          | some j => Except.ok (some j)
          | none => Except.error "Unexpected token in JSON"
        | none => Except.ok none
    else Except.ok none
  match step1 with
  | Except.error details => GenResp.serverError details hasAI
  | Except.ok w0 =>
    let step2 : Except String (Option Json) :=
      if jsFalsyOpt w0 && e.hasOpenAI then
        match e.openai with
        | OpenAIRes.err => Except.error "OpenAI request failed"
        | OpenAIRes.okContent content =>
          match jsonParse content with
          | some j => Except.ok (some j)
          | none => Except.error "Unexpected token in JSON"
      else Except.ok w0
    match step2 with
    | Except.error details => GenResp.serverError details hasAI
    | Except.ok w1 =>
      let step3 : Except String Json :=
        if jsFalsyOpt w1 then
          match e.desc with
          | none => Except.error "Cannot read properties of undefined (reading toLowerCase)"
          | some d => Except.ok (intelligentFallback d)
        else Except.ok (w1.getD Json.null)
      match step3 with
      | Except.error details => GenResp.serverError details hasAI
      | Except.ok wf => GenResp.ok (indexDefaulting e.now wf)

/-- The health-check body of GET /, src/index.js lines 19-21: it is the
endpoint that advertises provider availability. -/
def healthBody (hasAnthropic : Bool) : Json :=
  Json.obj [("status", Json.str "ProcessArchitec Backend Running"),
    ("ai", Json.bool hasAnthropic)]

/-! ## Observation helpers used by the claims -/

/-- The length of the nodes array of a document. -/
def nodeCount (wf : Json) : Nat :=
  match jsGetProp wf "nodes" with
  | some (Json.arr ns) => ns.length
  | _ => 0

/-- The type strings of the nodes of a document, in order. -/
def nodeTypes (wf : Json) : List String :=
  match jsGetProp wf "nodes" with
  | some (Json.arr ns) => ns.filterMap (fun n =>
      match jsGetProp n "type" with
      | some (Json.str t) => some t
      | _ => none)
  | _ => []

/-- The node types the fallback can emit that are triggers. -/
def triggerTypeNames : List String :=
  ["n8n-nodes-base.emailReadImap", "n8n-nodes-base.scheduleTrigger", "n8n-nodes-base.webhook"]

/-- How many nodes of a document are trigger nodes. -/
def triggerCount (wf : Json) : Nat :=
  ((nodeTypes wf).filter (fun t => triggerTypeNames.contains t)).length

/-- The parameters object of the first node of a document. -/
def firstNodeParams (wf : Json) : Option Json :=
  match jsGetProp wf "nodes" with
  | some (Json.arr ns) => ns.head?.bind (fun n => jsGetProp n "parameters")
  | _ => none

/-- The id strings of the nodes of a document, in order. -/
def nodeIds (wf : Json) : List String :=
  match jsGetProp wf "nodes" with
  | some (Json.arr ns) => ns.filterMap (fun n =>
      match jsGetProp n "id" with
      | some (Json.str s) => some s
      | _ => none)
  | _ => []

/-- The source node ids appearing as keys of the connections mapping. -/
def connKeys (wf : Json) : List String :=
  match jsGetProp wf "connections" with
  | some (Json.obj m) => m.map Prod.fst
  | _ => []

/-- The document routes the full output of node src to node tgt exactly
when its connections entry for src is the single main-port edge to
tgt. -/
def chainsTo (wf : Json) (src tgt : String) : Prop :=
  ∃ m, jsGetProp wf "connections" = some (Json.obj m) ∧ jsGet m src = some (mainLink tgt)

/-- The target ids of one fan-out edge list. -/
def edgeTargets : Json → List String
  | Json.arr edges => edges.filterMap (fun e =>
      match jsGetProp e "node" with
      | some (Json.str t) => some t
      | _ => none)
  | _ => []

/-- The target ids reachable through one output port value. -/
def portTargets : Json → List String
  | Json.arr outs => (outs.map edgeTargets).flatten
  | _ => []

/-- Every target id of one connections entry. -/
def connEntryTargets : Json → List String
  | Json.obj ports => (ports.map (fun kv => portTargets kv.2)).flatten
  | _ => []

/-- Every target id appearing anywhere in the connections mapping. -/
def connAllTargets (wf : Json) : List String :=
  match jsGetProp wf "connections" with
  | some (Json.obj m) => (m.map (fun kv => connEntryTargets kv.2)).flatten
  | _ => []

/-! ## Helper lemmas -/

theorem jsGet_setProp_self (l : List (String × Json)) (k : String) (v : Json) :
    jsGet (setProp l k v) k = some v := by
  induction l with
  | nil => simp [setProp, jsGet]
  | cons kv rest ih =>
    obtain ⟨k2, w⟩ := kv
    by_cases h : k2 = k
    · simp [setProp, jsGet, h]
    · simp [setProp, jsGet, h, ih]

theorem setProp_eq_self (l : List (String × Json)) (k : String) (v : Json)
    (h : jsGet l k = some v) : setProp l k v = l := by
  induction l with
  | nil => simp [jsGet] at h
  | cons kv rest ih =>
    obtain ⟨k2, w⟩ := kv
    by_cases hk : k2 = k
    · simp [jsGet, hk] at h
      simp [setProp, hk, h]
    · simp [jsGet, hk] at h
      simp [setProp, hk, ih h]

theorem jsGet_setProp_ne (l : List (String × Json)) (k k2 : String) (v : Json)
    (h : k ≠ k2) : jsGet (setProp l k2 v) k = jsGet l k := by
  induction l with
  | nil =>
    have h2 : ¬ k2 = k := fun hh => h hh.symm
    simp [setProp, jsGet, h2]
  | cons kv rest ih =>
    obtain ⟨k3, w⟩ := kv
    by_cases hk : k3 = k2
    · subst hk
      have h3 : ¬ k3 = k := fun hh => h hh.symm
      simp [setProp, jsGet, h3]
    · simp only [setProp, hk, if_false, jsGet]
      by_cases hk3 : k3 = k
      · simp [jsGet, hk3]
      · simp [jsGet, hk3, ih]

theorem jsTruthy_jsOr (o : Option Json) (d : Json) (hd : jsTruthy d = true) :
    jsTruthy (jsOr o d) = true := by
  match o with
  | none => simpa [jsOr]
  | some j =>
    by_cases h : jsTruthy j
    · simp [jsOr, h]
    · simp [jsOr, h, hd]

theorem jsOr_of_truthy (j : Json) (d : Json) (h : jsTruthy j = true) :
    jsOr (some j) d = j := by simp [jsOr, h]

/-- Shape of every node produced by the node-normalization map: an object
whose position property is present and truthy. -/
def normedNode (n : Json) : Prop :=
  ∃ m, n = Json.obj m ∧ ∃ q, jsGet m "position" = some q ∧ jsTruthy q = true

theorem normNode_out (i : Nat) (n n2 : Json) (h : normNode i n = some n2) :
    normedNode n2 := by
  cases n with
  | null => simp [normNode] at h
  | bool b =>
    simp only [normNode, Option.some_inj] at h
    exact ⟨_, h.symm, _, jsGet_setProp_self _ _ _, jsTruthy_jsOr _ _ rfl⟩
  | num s =>
    simp only [normNode, Option.some_inj] at h
    exact ⟨_, h.symm, _, jsGet_setProp_self _ _ _, jsTruthy_jsOr _ _ rfl⟩
  | str s =>
    simp only [normNode, Option.some_inj] at h
    exact ⟨_, h.symm, _, jsGet_setProp_self _ _ _, jsTruthy_jsOr _ _ rfl⟩
  | arr l =>
    simp only [normNode, Option.some_inj] at h
    exact ⟨_, h.symm, _, jsGet_setProp_self _ _ _, jsTruthy_jsOr _ _ rfl⟩
  | obj l =>
    simp only [normNode, Option.some_inj] at h
    exact ⟨_, h.symm, _, jsGet_setProp_self _ _ _, jsTruthy_jsOr _ _ rfl⟩

theorem normNode_fixpoint (i : Nat) (n : Json) (h : normedNode n) :
    normNode i n = some n := by
  obtain ⟨m, rfl, q, hq, htr⟩ := h
  simp [normNode, jsSpreadEntries, jsGetProp, hq, jsOr_of_truthy _ _ htr,
    setProp_eq_self _ _ _ hq]

theorem mapNodes_out (k : Nat) (ns ns2 : List Json) (h : mapNodes k ns = some ns2) :
    ∀ n ∈ ns2, normedNode n := by
  induction ns generalizing k ns2 with
  | nil =>
    simp only [mapNodes, Option.some_inj] at h
    subst h; simp
  | cons hd tl ih =>
    simp only [mapNodes] at h
    cases h1 : normNode k hd with
    | none => rw [h1] at h; simp at h
    | some n2 =>
      rw [h1] at h
      cases h2 : mapNodes (k + 1) tl with
      | none => rw [h2] at h; simp at h
      | some tl2 =>
        rw [h2] at h
        simp only [Option.some_inj] at h
        subst h
        intro n hn
        rcases List.mem_cons.mp hn with rfl | hmem
        · exact normNode_out _ _ _ h1
        · exact ih _ _ h2 n hmem

theorem mapNodes_fixpoint (k : Nat) (ns : List Json) (h : ∀ n ∈ ns, normedNode n) :
    mapNodes k ns = some ns := by
  induction ns generalizing k with
  | nil => simp [mapNodes]
  | cons hd tl ih =>
    simp [mapNodes, normNode_fixpoint k hd (h hd (List.mem_cons_self hd tl)),
      ih (k + 1) (fun n hn => h n (List.mem_cons_of_mem hd hn))]

theorem jsTruthy_str_pre (a b : String) (h : a.data ≠ []) :
    jsTruthy (Json.str (a ++ b)) = true := by
  simp only [jsTruthy, String.data_append, Bool.not_eq_eq_eq_not, Bool.not_true]
  cases hd : a.data with
  | nil => exact absurd hd h
  | cons c cs => simp

theorem normalizeFields_get_name (now : Nat) (l : List (String × Json)) :
    jsGet (normalizeFields now l) "name"
      = some (jsOr (jsGet l "name") (Json.str ("ProcessArchitec Workflow - " ++ toString now))) := by
  simp only [normalizeFields]
  rw [jsGet_setProp_ne _ _ _ _ (by decide), jsGet_setProp_ne _ _ _ _ (by decide),
    jsGet_setProp_ne _ _ _ _ (by decide), jsGet_setProp_self]

theorem normalizeFields_get_nodes (now : Nat) (l : List (String × Json)) :
    jsGet (normalizeFields now l) "nodes" = some (jsOr (jsGet l "nodes") (Json.arr [])) := by
  simp only [normalizeFields]
  rw [jsGet_setProp_ne _ _ _ _ (by decide), jsGet_setProp_ne _ _ _ _ (by decide),
    jsGet_setProp_self, jsGet_setProp_ne _ _ _ _ (by decide)]

theorem normalizeFields_get_connections (now : Nat) (l : List (String × Json)) :
    jsGet (normalizeFields now l) "connections"
      = some (jsOr (jsGet l "connections") (Json.obj [])) := by
  simp only [normalizeFields]
  rw [jsGet_setProp_ne _ _ _ _ (by decide), jsGet_setProp_self,
    jsGet_setProp_ne _ _ _ _ (by decide), jsGet_setProp_ne _ _ _ _ (by decide)]

theorem normalizeFields_get_settings (now : Nat) (l : List (String × Json)) :
    jsGet (normalizeFields now l) "settings"
      = some (jsOr (jsGet l "settings") (Json.obj [("executionOrder", Json.str "v1")])) := by
  simp only [normalizeFields]
  rw [jsGet_setProp_self, jsGet_setProp_ne _ _ _ _ (by decide),
    jsGet_setProp_ne _ _ _ _ (by decide), jsGet_setProp_ne _ _ _ _ (by decide)]

theorem normalizeFields_of_truthy (now : Nat) (m : List (String × Json))
    (hn : ∃ a, jsGet m "name" = some a ∧ jsTruthy a = true)
    (hno : ∃ b, jsGet m "nodes" = some b ∧ jsTruthy b = true)
    (hc : ∃ c, jsGet m "connections" = some c ∧ jsTruthy c = true)
    (hs : ∃ s, jsGet m "settings" = some s ∧ jsTruthy s = true) :
    normalizeFields now m = m := by
  obtain ⟨a, ha, hta⟩ := hn
  obtain ⟨b, hb, htb⟩ := hno
  obtain ⟨c, hc2, htc⟩ := hc
  obtain ⟨s, hs2, hts⟩ := hs
  simp only [normalizeFields, ha, jsOr_of_truthy _ _ hta, setProp_eq_self _ _ _ ha,
    hb, jsOr_of_truthy _ _ htb, setProp_eq_self _ _ _ hb,
    hc2, jsOr_of_truthy _ _ htc, setProp_eq_self _ _ _ hc2,
    hs2, jsOr_of_truthy _ _ hts, setProp_eq_self _ _ _ hs2]

theorem normalizeDoc_obj (now : Nat) (l : List (String × Json)) (d : Json)
    (h : normalizeDoc now (Json.obj l) = some d) :
    ∃ ns ns2, jsGet (normalizeFields now l) "nodes" = some (Json.arr ns) ∧
      mapNodes 0 ns = some ns2 ∧
      d = Json.obj (setProp (normalizeFields now l) "nodes" (Json.arr ns2)) := by
  simp only [normalizeDoc] at h
  split at h
  · split at h
    · rename_i x1 ns heq x2 ns2 hm
      exact ⟨ns, ns2, heq, hm, (Option.some_inj.mp h).symm⟩
    · simp at h
  · simp at h

/-- Claim C7 helper: the result of a successful normalization pass has
all four required fields present and truthy, its nodes value the mapped
array. -/
theorem normalizeDoc_idem_aux (n1 n2 : Nat) (doc d : Json)
    (h : normalizeDoc n1 doc = some d) : normalizeDoc n2 d = some d := by
  cases doc with
  | obj l =>
    obtain ⟨ns, ns2, h4, hm, rfl⟩ := normalizeDoc_obj n1 l d h
    have hname : jsGet (setProp (normalizeFields n1 l) "nodes" (Json.arr ns2)) "name"
        = some (jsOr (jsGet l "name") (Json.str ("ProcessArchitec Workflow - " ++ toString n1))) := by
      rw [jsGet_setProp_ne _ _ _ _ (by decide), normalizeFields_get_name]
    have hnodes : jsGet (setProp (normalizeFields n1 l) "nodes" (Json.arr ns2)) "nodes"
        = some (Json.arr ns2) := jsGet_setProp_self _ _ _
    have hconn : jsGet (setProp (normalizeFields n1 l) "nodes" (Json.arr ns2)) "connections"
        = some (jsOr (jsGet l "connections") (Json.obj [])) := by
      rw [jsGet_setProp_ne _ _ _ _ (by decide), normalizeFields_get_connections]
    have hset : jsGet (setProp (normalizeFields n1 l) "nodes" (Json.arr ns2)) "settings"
        = some (jsOr (jsGet l "settings") (Json.obj [("executionOrder", Json.str "v1")])) := by
      rw [jsGet_setProp_ne _ _ _ _ (by decide), normalizeFields_get_settings]
    have hfix := normalizeFields_of_truthy n2 _
      ⟨_, hname, jsTruthy_jsOr _ _ (jsTruthy_str_pre "ProcessArchitec Workflow - " _ (by decide))⟩
      ⟨_, hnodes, rfl⟩
      ⟨_, hconn, jsTruthy_jsOr _ _ rfl⟩
      ⟨_, hset, jsTruthy_jsOr _ _ rfl⟩
    simp only [normalizeDoc, hfix, hnodes,
      mapNodes_fixpoint 0 ns2 (mapNodes_out 0 ns ns2 hm),
      setProp_eq_self _ _ _ hnodes]
  | null => simp [normalizeDoc] at h
  | bool b => simp [normalizeDoc] at h
  | num s => simp [normalizeDoc] at h
  | str s => simp [normalizeDoc] at h
  | arr l => simp [normalizeDoc] at h

theorem mapNodes_get (k : Nat) (ns ns2 : List Json) (h : mapNodes k ns = some ns2) :
    ∀ i n, ns[i]? = some n → ∃ n2, ns2[i]? = some n2 ∧ normNode (k + i) n = some n2 := by
  induction ns generalizing k ns2 with
  | nil => intro i n hi; simp at hi
  | cons hd tl ih =>
    simp only [mapNodes] at h
    cases h1 : normNode k hd with
    | none => rw [h1] at h; simp at h
    | some m =>
      rw [h1] at h
      cases h2 : mapNodes (k + 1) tl with
      | none => rw [h2] at h; simp at h
      | some tl2 =>
        rw [h2] at h
        simp only [Option.some_inj] at h
        subst h
        intro i n hi
        cases i with
        | zero =>
          simp only [List.getElem?_cons_zero, Option.some_inj] at hi
          subst hi
          exact ⟨m, by simp, by simpa using h1⟩
        | succ j =>
          simp only [List.getElem?_cons_succ] at hi
          obtain ⟨n2, hn2, hnorm⟩ := ih (k + 1) tl2 h2 j n hi
          exact ⟨n2, by simpa using hn2, by
            have : k + 1 + j = k + (j + 1) := by omega
            rw [← this]; exact hnorm⟩

theorem indexDefaulting_fallback (now : Nat) (d : String) :
    indexDefaulting now (intelligentFallback d) = intelligentFallback d := rfl

/-- Claim C4: for every requirement string, the heuristic synthesizer
produces exactly one trigger node, typed by the case-insensitive keyword
rules with email first, then daily/schedule (the schedule trigger
defaulting to a 24-hour interval), then webhook; a requirement containing
both email and daily therefore yields the email trigger. -/
theorem c4_trigger_selection : ∀ d : String,
    triggerCount (intelligentFallback d) = 1 ∧
    (nodeTypes (intelligentFallback d)).head? = some
      (if isEmailWorkflow d then "n8n-nodes-base.emailReadImap"
       else if isScheduled d then "n8n-nodes-base.scheduleTrigger"
       else "n8n-nodes-base.webhook") ∧
    firstNodeParams (intelligentFallback d) = some
      (if isEmailWorkflow d then
        Json.obj [("mailbox", Json.str "INBOX"),
          ("postProcessAction", Json.str "nothing"), ("options", Json.obj [])]
       else if isScheduled d then
        Json.obj [("rule", Json.obj [("interval", Json.arr [Json.obj
          [("field", Json.str "hours"), ("hoursInterval", Json.num "24")]])])]
       else
        Json.obj [("path", Json.str "workflow-trigger"), ("method", Json.str "POST")]) ∧
    isEmailWorkflow "send a daily email report" = true ∧
    isScheduled "send a daily email report" = true ∧
    (nodeTypes (intelligentFallback "send a daily email report")).head?
      = some "n8n-nodes-base.emailReadImap" := by
  intro d
  simp only [triggerCount, nodeTypes, firstNodeParams, intelligentFallback]
  cases hE : isEmailWorkflow d <;> cases hS : isScheduled d <;>
    cases hG : needsGoogleSheets d <;>
    exact ⟨rfl, rfl, rfl, rfl, rfl, rfl⟩

/-- Claim C5: a requirement mentioning sheet or spreadsheet yields
exactly three nodes chained trigger to process to sheets, the processing
output rewired to the sheets node; any other requirement yields exactly
two nodes chained trigger to process, where the processing node output
terminates. -/
theorem c5_linear_chain : ∀ d : String,
    nodeCount (intelligentFallback d) = (if needsGoogleSheets d then 3 else 2) ∧
    nodeIds (intelligentFallback d)
      = (if needsGoogleSheets d then ["trigger", "process", "sheets"]
         else ["trigger", "process"]) ∧
    connKeys (intelligentFallback d)
      = (if needsGoogleSheets d then ["trigger", "process"] else ["trigger"]) ∧
    chainsTo (intelligentFallback d) "trigger" "process" ∧
    (needsGoogleSheets d = true ↔ chainsTo (intelligentFallback d) "process" "sheets") := by
  intro d
  simp only [nodeCount, nodeIds, connKeys, chainsTo, intelligentFallback]
  cases hE : isEmailWorkflow d <;> cases hS : isScheduled d <;>
    cases hG : needsGoogleSheets d <;>
    refine ⟨rfl, rfl, rfl, ⟨_, rfl, rfl⟩, ?_⟩ <;>
    first
    | exact ⟨fun _ => ⟨_, rfl, rfl⟩, fun _ => rfl⟩
    | (refine ⟨fun h => (nomatch h), ?_⟩
       rintro ⟨m, hm, hg⟩
       have hm2 : Json.obj [("trigger", mainLink "process")] = Json.obj m :=
         Option.some_inj.mp hm
       cases Json.obj.inj hm2
       exact Option.noConfusion hg)

/-- Claim C8: the heuristic synthesizer followed by the src/index.js
defaulting pass is a pure deterministic function of the requirement text:
two runs at arbitrary (distinct) timestamps produce identical documents,
because the synthesized name and settings are always truthy and the
timestamped defaults are never taken. -/
theorem c8_heuristic_deterministic : ∀ (d : String) (n1 n2 : Nat),
    indexDefaulting n1 (intelligentFallback d) = indexDefaulting n2 (intelligentFallback d) := by
  intro d n1 n2
  rw [indexDefaulting_fallback, indexDefaulting_fallback]

/-- Claim C10: every heuristic document satisfies referential integrity
without repair: connection sources and targets are ids of present nodes,
and node ids are pairwise distinct. -/
theorem c10_referential_integrity : ∀ d : String,
    (nodeIds (intelligentFallback d)).Nodup ∧
    (connKeys (intelligentFallback d)).all
      (fun s => (nodeIds (intelligentFallback d)).contains s) = true ∧
    (connAllTargets (intelligentFallback d)).all
      (fun t => (nodeIds (intelligentFallback d)).contains t) = true := by
  intro d
  simp only [nodeIds, connKeys, connAllTargets, intelligentFallback]
  cases hE : isEmailWorkflow d <;> cases hS : isScheduled d <;>
    cases hG : needsGoogleSheets d <;>
    first
    | exact ⟨(by decide : (["trigger", "process", "sheets"] : List String).Nodup), rfl, rfl⟩
    | exact ⟨(by decide : (["trigger", "process"] : List String).Nodup), rfl, rfl⟩

theorem normNode_pos_default (i : Nat) (n n2 : Json) (hnorm : normNode i n = some n2)
    (hpos : jsGetProp n "position" = none) :
    jsGetProp n2 "position" = some (posDefault i) := by
  cases n with
  | null => simp [normNode] at hnorm
  | bool b =>
    simp only [normNode, Option.some_inj] at hnorm
    cases hnorm
    simp [jsGetProp, jsGet_setProp_self, hpos, jsOr]
  | num s =>
    simp only [normNode, Option.some_inj] at hnorm
    cases hnorm
    simp [jsGetProp, jsGet_setProp_self, hpos, jsOr]
  | str s =>
    simp only [normNode, Option.some_inj] at hnorm
    cases hnorm
    simp [jsGetProp, jsGet_setProp_self, hpos, jsOr]
  | arr l =>
    simp only [normNode, Option.some_inj] at hnorm
    cases hnorm
    simp [jsGetProp, jsGet_setProp_self, hpos, jsOr]
  | obj m =>
    simp only [normNode, Option.some_inj] at hnorm
    cases hnorm
    simp only [jsGetProp] at hpos
    simp [jsGetProp, jsGet_setProp_self, hpos, jsOr]

/-- Claim C6: normalization fills every structurally absent required
field: an absent or empty name becomes the generated default, absent
settings become the default execution-order settings, absent nodes
become the empty sequence, absent connections become the empty mapping,
and a node missing its position receives [250 + 250 * index, 300]. -/
theorem c6_normalizer_defaults (now : Nat) (l : List (String × Json)) (d : Json)
    (h : normalizeDoc now (Json.obj l) = some d) :
    (jsGet l "name" = none →
      jsGetProp d "name" = some (Json.str ("ProcessArchitec Workflow - " ++ toString now)))
    ∧ (jsGet l "name" = some (Json.str "") →
      jsGetProp d "name" = some (Json.str ("ProcessArchitec Workflow - " ++ toString now)))
    ∧ (jsGet l "settings" = none →
      jsGetProp d "settings" = some (Json.obj [("executionOrder", Json.str "v1")]))
    ∧ (jsGet l "connections" = none → jsGetProp d "connections" = some (Json.obj []))
    ∧ (jsGet l "nodes" = none → jsGetProp d "nodes" = some (Json.arr []))
    ∧ (∀ ns i n, jsGet l "nodes" = some (Json.arr ns) → ns[i]? = some n →
      jsGetProp n "position" = none →
      ∃ ns2 n2, jsGetProp d "nodes" = some (Json.arr ns2) ∧ ns2[i]? = some n2 ∧
        jsGetProp n2 "position"
          = some (Json.arr [Json.num (toString (250 + i * 250)), Json.num "300"])) := by
  obtain ⟨ns, ns2, h4, hm, rfl⟩ := normalizeDoc_obj now l d h
  have hdname : jsGetProp
      (Json.obj (setProp (normalizeFields now l) "nodes" (Json.arr ns2))) "name"
      = some (jsOr (jsGet l "name")
          (Json.str ("ProcessArchitec Workflow - " ++ toString now))) := by
    simp only [jsGetProp]
    rw [jsGet_setProp_ne _ _ _ _ (by decide), normalizeFields_get_name]
  have hdset : jsGetProp
      (Json.obj (setProp (normalizeFields now l) "nodes" (Json.arr ns2))) "settings"
      = some (jsOr (jsGet l "settings") (Json.obj [("executionOrder", Json.str "v1")])) := by
    simp only [jsGetProp]
    rw [jsGet_setProp_ne _ _ _ _ (by decide), normalizeFields_get_settings]
  have hdconn : jsGetProp
      (Json.obj (setProp (normalizeFields now l) "nodes" (Json.arr ns2))) "connections"
      = some (jsOr (jsGet l "connections") (Json.obj [])) := by
    simp only [jsGetProp]
    rw [jsGet_setProp_ne _ _ _ _ (by decide), normalizeFields_get_connections]
  have hdnodes : jsGetProp
      (Json.obj (setProp (normalizeFields now l) "nodes" (Json.arr ns2))) "nodes"
      = some (Json.arr ns2) := by
    simp only [jsGetProp]
    exact jsGet_setProp_self _ _ _
  refine ⟨?_, ?_, ?_, ?_, ?_, ?_⟩
  · intro h1
    rw [h1] at hdname
    simpa [jsOr] using hdname
  · intro h1
    rw [h1] at hdname
    simpa [jsOr, jsTruthy] using hdname
  · intro h1
    rw [h1] at hdset
    simpa [jsOr] using hdset
  · intro h1
    rw [h1] at hdconn
    simpa [jsOr] using hdconn
  · intro h1
    rw [normalizeFields_get_nodes, h1] at h4
    simp only [jsOr, Option.some_inj] at h4
    cases h4
    have h0 : mapNodes 0 ([] : List Json) = some [] := rfl
    rw [h0] at hm
    cases Option.some_inj.mp hm
    exact hdnodes
  · intro ns0 i n h1 hi hpos
    rw [normalizeFields_get_nodes, h1] at h4
    have harr : ns0 = ns := by
      have := Option.some_inj.mp h4
      simpa [jsOr, jsTruthy] using this
    cases harr
    obtain ⟨n2, hn2, hnorm⟩ := mapNodes_get 0 ns ns2 hm i n hi
    refine ⟨ns2, n2, hdnodes, hn2, ?_⟩
    have := normNode_pos_default (0 + i) n n2 hnorm hpos
    simpa [posDefault, Nat.zero_add] using this

theorem fallback_nodeCount (d : String) :
    nodeCount (intelligentFallback d) = if needsGoogleSheets d then 3 else 2 := by
  simp only [nodeCount, intelligentFallback]
  cases hG : needsGoogleSheets d <;> rfl

/-- Claim C7: normalization is idempotent; a second pass (at any later
timestamp) leaves a normalized document unchanged. -/
theorem c7_normalize_idempotent (n1 n2 : Nat) (doc d : Json)
    (h : normalizeDoc n1 doc = some d) : normalizeDoc n2 d = some d :=
  normalizeDoc_idem_aux n1 n2 doc d h

theorem c7_normalize_idempotent_witness :
    normalizeDoc 5 (Json.obj []) = some (Json.obj
      [("name", Json.str "ProcessArchitec Workflow - 5"), ("nodes", Json.arr []),
       ("connections", Json.obj []),
       ("settings", Json.obj [("executionOrder", Json.str "v1")])])
    ∧ normalizeDoc 9 (Json.obj
      [("name", Json.str "ProcessArchitec Workflow - 5"), ("nodes", Json.arr []),
       ("connections", Json.obj []),
       ("settings", Json.obj [("executionOrder", Json.str "v1")])]) = some (Json.obj
      [("name", Json.str "ProcessArchitec Workflow - 5"), ("nodes", Json.arr []),
       ("connections", Json.obj []),
       ("settings", Json.obj [("executionOrder", Json.str "v1")])]) :=
  ⟨rfl, c7_normalize_idempotent 5 9 (Json.obj []) _ rfl⟩

/-- Claim C1 counterexample: with both providers configured and OpenAI
healthy, a non-success Claude status surfaces to the caller as a 500
error response instead of advancing to OpenAI. -/
theorem c1_counterexample :
    handleGenerate ⟨true, ClaudeRes.httpErr 500, true,
        OpenAIRes.okContent "\x7b\x7d", some "x", 0⟩
      = GenResp.serverError "Claude API failed" true := rfl

/-- Claim C1, amended: in src/index.js a Claude ProviderError (rejected
fetch or non-success status) or a ParseError of a located span surfaces
as a 500 error response without trying the next provider; the chain
advances past Claude only when the call succeeds and its text has no
brace span. -/
theorem c1_claude_failure_surfaces (e : GenEnv) (hA : e.hasAnthropic = true) :
    (e.claude = ClaudeRes.netErr →
      handleGenerate e = GenResp.serverError "fetch failed" (e.hasAnthropic || e.hasOpenAI))
    ∧ (∀ st, e.claude = ClaudeRes.httpErr st →
      handleGenerate e = GenResp.serverError "Claude API failed" (e.hasAnthropic || e.hasOpenAI))
    ∧ (∀ text sp, e.claude = ClaudeRes.okText text → spanMatch text = some sp →
      jsonParse sp = none →
      handleGenerate e
        = GenResp.serverError "Unexpected token in JSON" (e.hasAnthropic || e.hasOpenAI))
    ∧ (∀ text c j, e.claude = ClaudeRes.okText text → spanMatch text = none →
      e.hasOpenAI = true → e.openai = OpenAIRes.okContent c → jsonParse c = some j →
      jsTruthy j = true →
      handleGenerate e = GenResp.ok (indexDefaulting e.now j)) := by
  obtain ⟨hA2, cl, hO, op, de, n⟩ := e
  simp only at hA
  subst hA
  refine ⟨?_, ?_, ?_, ?_⟩
  · intro hc; subst hc; rfl
  · intro st hc; subst hc; rfl
  · intro text sp hc hsp hp
    subst hc
    simp only [handleGenerate, hsp, hp, if_true]
  · intro text c j hc hsp hO2 hop hp htr
    subst hc
    subst hO2
    subst hop
    simp only [handleGenerate, hsp, hp]
    simp [htr, jsFalsyOpt]

theorem c1_claude_failure_surfaces_witness :
    handleGenerate ⟨true, ClaudeRes.httpErr 503, true,
        OpenAIRes.okContent "\x7b\x7d", some "y", 1⟩
      = GenResp.serverError "Claude API failed" true
    ∧ handleGenerate ⟨true, ClaudeRes.okText "no braces", true,
        OpenAIRes.okContent "\x7b\"a\":1\x7d", some "y", 1⟩
      = GenResp.ok (indexDefaulting 1 (Json.obj [("a", Json.num "1")])) :=
  ⟨(c1_claude_failure_surfaces ⟨true, ClaudeRes.httpErr 503, true,
      OpenAIRes.okContent "\x7b\x7d", some "y", 1⟩ rfl).2.1 503 rfl,
   (c1_claude_failure_surfaces ⟨true, ClaudeRes.okText "no braces", true,
      OpenAIRes.okContent "\x7b\"a\":1\x7d", some "y", 1⟩ rfl).2.2.2
      "no braces" "\x7b\"a\":1\x7d" (Json.obj [("a", Json.num "1")]) rfl rfl rfl rfl rfl rfl⟩

/-- Claim C2 counterexample: with Claude configured and replying with a
parseable document whose nodes array is empty, the pipeline answers 200
with a zero-node document, refuting the unconditional length bound. -/
theorem c2_counterexample :
    handleGenerate ⟨true, ClaudeRes.okText "\x7b\"name\":\"x\",\"nodes\":[]\x7d", false,
        OpenAIRes.err, some "req", 3⟩
      = GenResp.ok (Json.obj [("name", Json.str "x"), ("nodes", Json.arr []),
          ("settings", Json.obj [("executionOrder", Json.str "v1")])])
    ∧ nodeCount (Json.obj [("name", Json.str "x"), ("nodes", Json.arr []),
          ("settings", Json.obj [("executionOrder", Json.str "v1")])]) = 0 :=
  ⟨rfl, rfl⟩

/-- Claim C2, amended: when no provider yields a document (here: none
configured), the pipeline always answers 200 with the heuristic
document, whose name is non-empty, whose nodes sequence has length at
least one, and whose settings contain the execution-order key. -/
theorem c2_heuristic_totality (e : GenEnv) (req : String)
    (hA : e.hasAnthropic = false) (hO : e.hasOpenAI = false)
    (hd : e.desc = some req) (hreq : req ≠ "") :
    ∃ wf, handleGenerate e = GenResp.ok wf ∧
      (∃ s, jsGetProp wf "name" = some (Json.str s) ∧ s.data ≠ []) ∧
      1 ≤ nodeCount wf ∧
      (∃ st, jsGetProp wf "settings" = some (Json.obj st) ∧
        jsGet st "executionOrder" = some (Json.str "v1")) := by
  obtain ⟨hA2, cl, hO2, op, de, n⟩ := e
  simp only at hA hO hd
  subst hA
  subst hO
  subst hd
  refine ⟨intelligentFallback req, rfl,
    ⟨"ProcessArchitec - " ++ substringTo req 50, rfl, ?_⟩, ?_,
    ⟨[("executionOrder", Json.str "v1")], rfl, rfl⟩⟩
  · rw [String.data_append]
    simp
  · rw [fallback_nodeCount]
    cases hG : needsGoogleSheets req <;> simp

theorem c2_heuristic_totality_witness :
    ("hello" : String) ≠ ""
    ∧ ∃ wf, handleGenerate ⟨false, ClaudeRes.okText "", false,
        OpenAIRes.err, some "hello", 0⟩ = GenResp.ok wf ∧
      (∃ s, jsGetProp wf "name" = some (Json.str s) ∧ s.data ≠ []) ∧
      1 ≤ nodeCount wf ∧
      (∃ st, jsGetProp wf "settings" = some (Json.obj st) ∧
        jsGet st "executionOrder" = some (Json.str "v1")) :=
  ⟨by decide, c2_heuristic_totality ⟨false, ClaudeRes.okText "", false,
      OpenAIRes.err, some "hello", 0⟩ "hello" rfl rfl rfl (by decide)⟩

/-- Claim C3 counterexample: raw text 42 has no brace span, the
whole-text parse succeeds with a non-object value, and extraction
accepts it; the claimed ParseError on non-object results does not
happen. -/
theorem c3_counterexample :
    extractClean "42" = some (Json.num "42") ∧ isObjJson (Json.num "42") = false :=
  ⟨rfl, rfl⟩

/-- Claim C3, amended: extraction parses the greedy first-to-last brace
span when one exists and otherwise parses the entire raw text, failing
exactly when the attempted parse fails; the type of the parsed value is
not checked.  It succeeds on a JSON object surrounded by prose and on
pure JSON, and fails on brace-free non-JSON text. -/
theorem c3_extraction_behavior :
    extractClean "Here is your workflow:\n\x7b\"name\":\"x\",\"nodes\":[],\"connections\":\x7b\x7d,\"settings\":\x7b\x7d\x7d\nEnjoy!"
      = some (Json.obj [("name", Json.str "x"), ("nodes", Json.arr []),
          ("connections", Json.obj []), ("settings", Json.obj [])])
    ∧ extractClean "\x7b\"name\":\"x\"\x7d" = some (Json.obj [("name", Json.str "x")])
    ∧ extractClean "no json here" = none
    ∧ (∀ raw sp, spanMatch raw = some sp → extractClean raw = jsonParse sp)
    ∧ (∀ raw, spanMatch raw = none → extractClean raw = jsonParse raw) :=
  ⟨rfl, rfl, rfl,
   fun raw sp h => by simp only [extractClean, h],
   fun raw h => by simp only [extractClean, h]⟩

theorem c3_extraction_behavior_witness :
    spanMatch "x\x7by\x7dz" = some "\x7by\x7d"
    ∧ extractClean "x\x7by\x7dz" = jsonParse "\x7by\x7d"
    ∧ spanMatch "plain" = none
    ∧ extractClean "plain" = jsonParse "plain" :=
  ⟨rfl, c3_extraction_behavior.2.2.2.1 "x\x7by\x7dz" "\x7by\x7d" rfl, rfl,
   c3_extraction_behavior.2.2.2.2 "plain" rfl⟩

/-- Claim C9 counterexample: a generation response (the 500 error body)
carries a hasAI field equal to the aggregate provider availability, so
provider availability is exposed outside the health endpoint. -/
theorem c9_counterexample :
    handleGenerate ⟨true, ClaudeRes.httpErr 500, false, OpenAIRes.err, some "x", 0⟩
      = GenResp.serverError "Claude API failed" true
    ∧ jsGetProp (respBody (GenResp.serverError "Claude API failed" true)) "hasAI"
      = some (Json.bool true)
    ∧ jsGetProp (healthBody true) "ai" = some (Json.bool true) :=
  ⟨rfl, rfl, rfl⟩

/-- Claim C9, amended: success responses carry only the workflow
document, but every 500 error response body includes a hasAI flag equal
to the aggregate provider availability of the environment. -/
theorem c9_error_reveals_availability (e : GenEnv) (details : String) (hasAI : Bool)
    (hresp : handleGenerate e = GenResp.serverError details hasAI) :
    jsGetProp (respBody (GenResp.serverError details hasAI)) "hasAI"
      = some (Json.bool (e.hasAnthropic || e.hasOpenAI)) := by
  obtain ⟨hA, cl, hO, op, de, n⟩ := e
  simp only [handleGenerate] at hresp
  repeat' split at hresp
  all_goals
    first
    | (cases hresp; rfl)
    | cases hresp

theorem c9_error_reveals_availability_witness :
    jsGetProp (respBody (GenResp.serverError "fetch failed" true)) "hasAI"
      = some (Json.bool true) :=
  c9_error_reveals_availability ⟨true, ClaudeRes.netErr, false, OpenAIRes.err, none, 0⟩
    "fetch failed" true rfl

theorem c6_normalizer_defaults_witness :
    jsGetProp (Json.obj [("name", Json.str "ProcessArchitec Workflow - 5"),
        ("nodes", Json.arr []), ("connections", Json.obj []),
        ("settings", Json.obj [("executionOrder", Json.str "v1")])]) "name"
      = some (Json.str "ProcessArchitec Workflow - 5")
    ∧ jsGetProp (Json.obj [("name", Json.str "ProcessArchitec Workflow - 5"),
        ("nodes", Json.arr []), ("connections", Json.obj []),
        ("settings", Json.obj [("executionOrder", Json.str "v1")])]) "settings"
      = some (Json.obj [("executionOrder", Json.str "v1")])
    ∧ jsGetProp (Json.obj [("name", Json.str "ProcessArchitec Workflow - 5"),
        ("nodes", Json.arr []), ("connections", Json.obj []),
        ("settings", Json.obj [("executionOrder", Json.str "v1")])]) "connections"
      = some (Json.obj [])
    ∧ jsGetProp (Json.obj [("name", Json.str "ProcessArchitec Workflow - 5"),
        ("nodes", Json.arr []), ("connections", Json.obj []),
        ("settings", Json.obj [("executionOrder", Json.str "v1")])]) "nodes"
      = some (Json.arr [])
    ∧ jsGetProp (Json.obj [("name", Json.str "ProcessArchitec Workflow - 5"),
        ("nodes", Json.arr []), ("connections", Json.obj []),
        ("settings", Json.obj [("executionOrder", Json.str "v1")])]) "name"
      = some (Json.str "ProcessArchitec Workflow - 5")
    ∧ (∃ ns2 n2, jsGetProp (Json.obj [("nodes", Json.arr
          [Json.obj [("id", Json.str "a"), ("position", Json.arr [Json.num "250", Json.num "300"])],
           Json.obj [("id", Json.str "b"), ("position", Json.arr [Json.num "500", Json.num "300"])],
           Json.obj [("id", Json.str "c"), ("position", Json.arr [Json.num "750", Json.num "300"])]]),
          ("name", Json.str "ProcessArchitec Workflow - 7"), ("connections", Json.obj []),
          ("settings", Json.obj [("executionOrder", Json.str "v1")])]) "nodes"
        = some (Json.arr ns2) ∧ ns2[0]? = some n2 ∧ jsGetProp n2 "position"
        = some (Json.arr [Json.num (toString (250 + 0 * 250)), Json.num "300"]))
    ∧ (∃ ns2 n2, jsGetProp (Json.obj [("nodes", Json.arr
          [Json.obj [("id", Json.str "a"), ("position", Json.arr [Json.num "250", Json.num "300"])],
           Json.obj [("id", Json.str "b"), ("position", Json.arr [Json.num "500", Json.num "300"])],
           Json.obj [("id", Json.str "c"), ("position", Json.arr [Json.num "750", Json.num "300"])]]),
          ("name", Json.str "ProcessArchitec Workflow - 7"), ("connections", Json.obj []),
          ("settings", Json.obj [("executionOrder", Json.str "v1")])]) "nodes"
        = some (Json.arr ns2) ∧ ns2[1]? = some n2 ∧ jsGetProp n2 "position"
        = some (Json.arr [Json.num (toString (250 + 1 * 250)), Json.num "300"]))
    ∧ (∃ ns2 n2, jsGetProp (Json.obj [("nodes", Json.arr
          [Json.obj [("id", Json.str "a"), ("position", Json.arr [Json.num "250", Json.num "300"])],
           Json.obj [("id", Json.str "b"), ("position", Json.arr [Json.num "500", Json.num "300"])],
           Json.obj [("id", Json.str "c"), ("position", Json.arr [Json.num "750", Json.num "300"])]]),
          ("name", Json.str "ProcessArchitec Workflow - 7"), ("connections", Json.obj []),
          ("settings", Json.obj [("executionOrder", Json.str "v1")])]) "nodes"
        = some (Json.arr ns2) ∧ ns2[2]? = some n2 ∧ jsGetProp n2 "position"
        = some (Json.arr [Json.num (toString (250 + 2 * 250)), Json.num "300"])) :=
  ⟨(c6_normalizer_defaults 5 [] _ rfl).1 rfl,
   (c6_normalizer_defaults 5 [] _ rfl).2.2.1 rfl,
   (c6_normalizer_defaults 5 [] _ rfl).2.2.2.1 rfl,
   (c6_normalizer_defaults 5 [] _ rfl).2.2.2.2.1 rfl,
   (c6_normalizer_defaults 5 [("name", Json.str "")] _ rfl).2.1 rfl,
   (c6_normalizer_defaults 7 [("nodes", Json.arr [Json.obj [("id", Json.str "a")],
      Json.obj [("id", Json.str "b")], Json.obj [("id", Json.str "c")]])] _ rfl).2.2.2.2.2
      [Json.obj [("id", Json.str "a")], Json.obj [("id", Json.str "b")],
       Json.obj [("id", Json.str "c")]] 0 (Json.obj [("id", Json.str "a")]) rfl rfl rfl,
   (c6_normalizer_defaults 7 [("nodes", Json.arr [Json.obj [("id", Json.str "a")],
      Json.obj [("id", Json.str "b")], Json.obj [("id", Json.str "c")]])] _ rfl).2.2.2.2.2
      [Json.obj [("id", Json.str "a")], Json.obj [("id", Json.str "b")],
       Json.obj [("id", Json.str "c")]] 1 (Json.obj [("id", Json.str "b")]) rfl rfl rfl,
   (c6_normalizer_defaults 7 [("nodes", Json.arr [Json.obj [("id", Json.str "a")],
      Json.obj [("id", Json.str "b")], Json.obj [("id", Json.str "c")]])] _ rfl).2.2.2.2.2
      [Json.obj [("id", Json.str "a")], Json.obj [("id", Json.str "b")],
       Json.obj [("id", Json.str "c")]] 2 (Json.obj [("id", Json.str "c")]) rfl rfl rfl⟩
